import Mathlib

/-!
Shallow embedding of the Kanban board's optimistic-update / offline-queue /
three-way-merge subsystem, and proofs about it.

Sources embedded:
* `src/utils/merge.js` (`threeWayMerge`, `mergeBoardState`)
* `src/context/boardReducer.js` (the sync-enabled variant: `boardReducer`,
  `initialState`, all action cases)
* `src/context/BoardProvider.jsx` (`performSync`)
* `src/hooks/useOfflineSync.js` (`processSyncQueue`, `getRetryDelay`)
* `src/hooks/useUndoRedo.js` (`undo`, `redo`)

Modelling conventions: JavaScript `undefined` field values are `Option`;
`Date.now()` and `generateId()` are impure inputs and become explicit
parameters; a JavaScript object used as a string-keyed map becomes an
association list whose update mirrors object-spread semantics (update in
place when the key exists, append otherwise); code paths that throw a
`TypeError` (indexing a missing key and then calling an array method on
`undefined`) make the embedded function return `none`.
-/

namespace Kanban

/-- A JSON-serialisable primitive field value as used by the merge code:
card/list fields are strings, numbers, booleans or arrays of strings.
`JSON.stringify` is injective on these, so the code's
`JSON.stringify(a) !== JSON.stringify(b)` comparison coincides with
structural disequality. -/
inductive Prim where
  | str : String → Prim
  | num : Int → Prim
  | bool : Bool → Prim
  | strList : List String → Prim
deriving DecidableEq, Repr

/-- A field value: `none` models JavaScript `undefined` (absent field). -/
abbrev Value := Option Prim

/-- The tracked mergeable fields, from `threeWayMerge`'s
`const fields = ['title', 'description', 'tags', 'archived', 'order']`. -/
inductive MField where
  | title | description | tags | archived | order
deriving DecidableEq, Repr

/-- A list or card entity. Fields not present on a given JavaScript object
are `none`. -/
structure Entity where
  id : String := ""
  title : Value := none
  description : Value := none
  tags : Value := none
  archived : Value := none
  order : Value := none
  createdAt : Option Nat := none
  lastModifiedAt : Option Nat := none
  version : Option Int := none
deriving DecidableEq, Repr

/-- Read a tracked field of an entity (`entity[field]`). -/
def Entity.getF (e : Entity) : MField → Value
  | .title => e.title
  | .description => e.description
  | .tags => e.tags
  | .archived => e.archived
  | .order => e.order

/-- Write a tracked field of an entity (`merged[field] = v`). -/
def Entity.setF (e : Entity) : MField → Value → Entity
  | .title, v => { e with title := v }
  | .description, v => { e with description := v }
  | .tags, v => { e with tags := v }
  | .archived, v => { e with archived := v }
  | .order, v => { e with order := v }

/-- Field iteration order of the `fields.forEach` loop in `threeWayMerge`. -/
def trackedFields : List MField := [.title, .description, .tags, .archived, .order]

/-- JavaScript `local.version === server.version` on possibly-undefined
numeric versions: `undefined === undefined` is `true`, mixed is `false`. -/
def jsVerEq : Option Int → Option Int → Bool
  | some a, some b => a == b
  | none, none => true
  | _, _ => false

/-- JavaScript `a < b` on possibly-undefined numeric versions: any
comparison against `undefined` is `false` (NaN semantics). -/
def jsVerLt : Option Int → Option Int → Bool
  | some a, some b => a < b
  | _, _ => false

/-- One field-level conflict record `{field, base, local, server}` as pushed
by `threeWayMerge`. (`local` is a Lean keyword, hence `localValue`.) -/
structure FieldConflict where
  field : MField
  base : Value
  localValue : Value
  server : Value
deriving DecidableEq, Repr

/-- The value `base?.[field]`: `undefined` when `base` is null. -/
def baseFieldValue (base : Option Entity) (f : MField) : Value :=
  match base with
  | none => none
  | some b => b.getF f

/-- Body of the `fields.forEach` loop of `threeWayMerge`: given the
accumulated `(merged, conflicts)` pair, process one field. -/
def mergeFieldStep (base : Option Entity) (lo so : Entity)
    (acc : Entity × List FieldConflict) (f : MField) : Entity × List FieldConflict :=
  let baseValue := baseFieldValue base f
  let localValue := lo.getF f
  let serverValue := so.getF f
  if localValue ≠ baseValue ∧ serverValue ≠ baseValue ∧ localValue ≠ serverValue then
    (acc.1, acc.2 ++ [⟨f, baseValue, localValue, serverValue⟩])
  else if localValue ≠ baseValue then
    (acc.1.setF f localValue, acc.2)
  else
    acc

/-- `threeWayMerge(base, local, server)` from `src/utils/merge.js`:
returns `{merged, conflicts}`. The two leading guards return `local`
unchanged when the versions are `===`-equal or the server's is older. -/
def threeWayMerge (base : Option Entity) (lo so : Entity) :
    Entity × List FieldConflict :=
  if jsVerEq lo.version so.version then (lo, [])
  else if jsVerLt so.version lo.version then (lo, [])
  else trackedFields.foldl (mergeFieldStep base lo so) (so, [])

/-- The conflict record `threeWayMerge` emits for field `f`, when the three
values are pairwise distinct. -/
def conflictAt (base : Option Entity) (lo so : Entity) (f : MField) :
    Option FieldConflict :=
  let baseValue := baseFieldValue base f
  let localValue := lo.getF f
  let serverValue := so.getF f
  if localValue ≠ baseValue ∧ serverValue ≠ baseValue ∧ localValue ≠ serverValue then
    some ⟨f, baseValue, localValue, serverValue⟩
  else
    none

theorem mergeFieldStep_snd (base : Option Entity) (lo so : Entity)
    (acc : Entity × List FieldConflict) (f : MField) :
    (mergeFieldStep base lo so acc f).2 =
      acc.2 ++ (conflictAt base lo so f).toList := by
  unfold mergeFieldStep conflictAt
  dsimp only
  split_ifs <;> simp

theorem foldl_mergeFieldStep_snd (base : Option Entity) (lo so : Entity) :
    ∀ (fs : List MField) (acc : Entity × List FieldConflict),
      (fs.foldl (mergeFieldStep base lo so) acc).2 =
        acc.2 ++ fs.filterMap (conflictAt base lo so) := by
  intro fs
  induction fs with
  | nil => intro acc; simp
  | cons f fs ih =>
      intro acc
      rw [List.foldl_cons, ih, List.filterMap_cons]
      rw [mergeFieldStep_snd]
      cases h : conflictAt base lo so f <;> simp [h, Option.toList]

theorem conflictAt_field (base : Option Entity) (lo so : Entity)
    (f : MField) (fc : FieldConflict)
    (h : conflictAt base lo so f = some fc) : fc.field = f := by
  unfold conflictAt at h
  dsimp only at h
  split_ifs at h
  · cases h; rfl

theorem mem_trackedFields (f : MField) : f ∈ trackedFields := by
  cases f <;> simp [trackedFields]

theorem threeWayMerge_conflicts_eq (base : Option Entity) (lo so : Entity)
    (hEq : jsVerEq lo.version so.version = false)
    (hLt : jsVerLt so.version lo.version = false) :
    (threeWayMerge base lo so).2 =
      trackedFields.filterMap (conflictAt base lo so) := by
  unfold threeWayMerge
  rw [hEq, hLt]
  simp only [Bool.false_eq_true, if_false]
  rw [foldl_mergeFieldStep_snd]
  simp

/-- C1. As stated the claim is false (see the counterexample below): the
leading version guards of `threeWayMerge` bypass field diffing entirely.
Amended: when the guards do not fire — the versions are not `===`-equal and
the server's version is not older — a conflict is reported for field `f`
iff the base, local and server values of `f` are pairwise distinct; in
particular no conflict is reported when only one side changed. -/
theorem threeWayMerge_conflict_iff_pairwise_distinct
    (base : Option Entity) (lo so : Entity) (f : MField)
    (hEq : jsVerEq lo.version so.version = false)
    (hLt : jsVerLt so.version lo.version = false) :
    (∃ fc ∈ (threeWayMerge base lo so).2, fc.field = f) ↔
      (lo.getF f ≠ baseFieldValue base f ∧ so.getF f ≠ baseFieldValue base f ∧
        lo.getF f ≠ so.getF f) := by
  rw [threeWayMerge_conflicts_eq base lo so hEq hLt]
  constructor
  · rintro ⟨fc, hmem, hfield⟩
    rcases List.mem_filterMap.mp hmem with ⟨f', _, hsome⟩
    have hf' : fc.field = f' := conflictAt_field base lo so f' fc hsome
    subst hfield
    rw [← hf'] at hsome
    unfold conflictAt at hsome
    dsimp only at hsome
    split_ifs at hsome with hcond
    · exact hcond
  · intro hcond
    refine ⟨⟨f, baseFieldValue base f, lo.getF f, so.getF f⟩, ?_, rfl⟩
    refine List.mem_filterMap.mpr ⟨f, mem_trackedFields f, ?_⟩
    unfold conflictAt
    dsimp only
    rw [if_pos hcond]

/-- C1 witness: at base title `"O"`, local title `"A"` and version 2,
server title `"B"` and version 3, the guards are inactive and a conflict on
`title` is reported, matching the pairwise-distinct criterion. -/
theorem threeWayMerge_conflict_iff_pairwise_distinct_witness :
    ∃ fc ∈ (threeWayMerge (some { id := "l1", title := some (.str "O"), version := some 1 })
      { id := "l1", title := some (.str "A"), version := some 2 }
      { id := "l1", title := some (.str "B"), version := some 3 }).2,
      fc.field = MField.title :=
  (threeWayMerge_conflict_iff_pairwise_distinct
    (some { id := "l1", title := some (.str "O"), version := some 1 })
    { id := "l1", title := some (.str "A"), version := some 2 }
    { id := "l1", title := some (.str "B"), version := some 3 }
    MField.title (by decide) (by decide)).mpr (by decide)

/-- C1 counterexample: with `===`-equal versions (both 2) and pairwise
distinct titles `"O"`/`"A"`/`"B"`, `threeWayMerge` reports no conflict at
all, refuting "a conflict is reported iff the values are pairwise
distinct" as stated for every input. -/
theorem threeWayMerge_conflict_iff_cex :
    (threeWayMerge (some { id := "l1", title := some (.str "O"), version := some 1 })
      { id := "l1", title := some (.str "A"), version := some 2 }
      { id := "l1", title := some (.str "B"), version := some 2 }).2 = [] ∧
    (Prim.str "A" : Value) ≠ some (.str "O") ∧
    (Prim.str "B" : Value) ≠ some (.str "O") ∧
    (Prim.str "A" : Value) ≠ some (.str "B") := by
  refine ⟨rfl, by decide, by decide, by decide⟩

/-- Lookup in a string-keyed JavaScript object modelled as an association
list (`obj[k]`, `undefined` when the key is absent). -/
def alGet (m : List (String × α)) (k : String) : Option α :=
  (m.find? (fun p => p.1 == k)).map (fun p => p.2)

/-- Object-spread update `{...m, [k]: v}`: replaces the value in place when
the key exists (keeping key order), appends the key otherwise. -/
def alSet (m : List (String × α)) (k : String) (v : α) : List (String × α) :=
  if m.any (fun p => p.1 == k) then
    m.map (fun p => if p.1 == k then (k, v) else p)
  else
    m ++ [(k, v)]

/-- Rest-destructuring deletion `const {[k]: _removed, ...rest} = m`. -/
def alDel (m : List (String × α)) (k : String) : List (String × α) :=
  m.filter (fun p => ¬ (p.1 == k))

/-- Insertion-order deduplication, as `new Set([...xs])` iterated with
`forEach` preserves first occurrences. -/
def dedupKeepFirst (xs : List String) : List String :=
  xs.foldl (fun acc x => if x ∈ acc then acc else acc ++ [x]) []

/-- The entity kind tag of a board-level conflict record. -/
inductive EKind where
  | list | card
deriving DecidableEq, Repr

/-- An entity-level conflict pushed by `mergeBoardState`:
`{type, listId?, id, conflicts, local, server}`; `resolution` is written
later by the reducer's `RESOLVE_CONFLICT` case and starts absent. -/
structure Conflict where
  type : EKind
  listId : Option String := none
  id : String
  conflicts : List FieldConflict
  localEntity : Entity
  serverEntity : Entity
  resolution : Option String := none
deriving DecidableEq, Repr

/-- The board-shaped input of `mergeBoardState`: the fields it reads from
the base/local/server states. -/
structure BoardShape where
  lists : List Entity := []
  cards : List (String × List Entity) := []
  boardTitle : String := ""
deriving DecidableEq, Repr

/-- The merged document `mergeBoardState` returns, with `lastModified`
stamped from `Date.now()` (an explicit parameter here). -/
structure MergedBoard where
  lists : List Entity
  cards : List (String × List Entity)
  boardTitle : String
  lastModified : Nat
deriving DecidableEq, Repr

/-- Body of the list-merging `allListIds.forEach` loop of
`mergeBoardState`, accumulating `(mergedLists, conflicts)`. -/
def mergeListStep (base : Option BoardShape) (lo so : BoardShape)
    (acc : List Entity × List Conflict) (listId : String) :
    List Entity × List Conflict :=
  let baseList := base.bind (fun b => b.lists.find? (fun l => l.id == listId))
  let localList := lo.lists.find? (fun l => l.id == listId)
  let serverList := so.lists.find? (fun l => l.id == listId)
  match localList, serverList with
  | none, _ => acc
  | some ll, none => if baseList.isNone then (acc.1 ++ [ll], acc.2) else acc
  | some ll, some sl =>
      let r := threeWayMerge baseList ll sl
      if r.2.length > 0 then
        (acc.1 ++ [sl],
          acc.2 ++ [{ type := .list, id := listId, conflicts := r.2,
                      localEntity := ll, serverEntity := sl }])
      else
        (acc.1 ++ [r.1], acc.2)

/-- Body of the inner `allCardIds.forEach` loop of `mergeBoardState` for one
list's cards, accumulating `(mergedCards[listId], conflicts)`. -/
def mergeCardStep (listId : String) (baseCards localCards serverCards : List Entity)
    (acc : List Entity × List Conflict) (cardId : String) :
    List Entity × List Conflict :=
  let baseCard := baseCards.find? (fun c => c.id == cardId)
  let localCard := localCards.find? (fun c => c.id == cardId)
  let serverCard := serverCards.find? (fun c => c.id == cardId)
  match localCard, serverCard with
  | none, _ => acc
  | some lc, none => if baseCard.isNone then (acc.1 ++ [lc], acc.2) else acc
  | some lc, some sc =>
      let r := threeWayMerge baseCard lc sc
      if r.2.length > 0 then
        (acc.1 ++ [sc],
          acc.2 ++ [{ type := .card, listId := some listId, id := cardId,
                      conflicts := r.2, localEntity := lc, serverEntity := sc }])
      else
        (acc.1 ++ [r.1], acc.2)

/-- Card merging for one `listId` of the outer card loop: computes the
value of `mergedCards[listId]` and the conflicts pushed while building it. -/
def mergeCardsForList (base : Option BoardShape) (lo so : BoardShape)
    (listId : String) : List Entity × List Conflict :=
  let localCards := (alGet lo.cards listId).getD []
  let serverCards := (alGet so.cards listId).getD []
  let baseCards := (base.bind (fun b => alGet b.cards listId)).getD []
  let allCardIds :=
    dedupKeepFirst (localCards.map (fun c => c.id) ++ serverCards.map (fun c => c.id))
  allCardIds.foldl (mergeCardStep listId baseCards localCards serverCards) ([], [])

/-- `mergeBoardState(baseState, localState, serverState)` from
`src/utils/merge.js`. `now` stands for the `Date.now()` stamped into the
merged document. The board title is `serverState.boardTitle ||
localState.boardTitle` (empty string is falsy). -/
def mergeBoardState (now : Nat) (base : Option BoardShape) (lo so : BoardShape) :
    MergedBoard × List Conflict :=
  let allListIds :=
    dedupKeepFirst (lo.lists.map (fun l => l.id) ++ so.lists.map (fun l => l.id))
  let listsAcc := allListIds.foldl (mergeListStep base lo so) ([], [])
  let cardsAcc := allListIds.foldl
    (fun (acc : List (String × List Entity) × List Conflict) listId =>
      let r := mergeCardsForList base lo so listId
      (acc.1 ++ [(listId, r.1)], acc.2 ++ r.2))
    ([], listsAcc.2)
  ({ lists := listsAcc.1, cards := cardsAcc.1,
     boardTitle := if so.boardTitle == "" then lo.boardTitle else so.boardTitle,
     lastModified := now },
   cardsAcc.2)

/-- C9. The merged board title is the server's whenever the server's title
is non-empty (the `serverState.boardTitle || localState.boardTitle`
fallback), regardless of any local change; and the conflict list is
completely independent of every input's board title, so a divergent board
title can never surface as a conflict. -/
theorem mergeBoardState_boardTitle_server_wins
    (now : Nat) (base : Option BoardShape) (lo so : BoardShape)
    (h : so.boardTitle ≠ "") :
    (mergeBoardState now base lo so).1.boardTitle = so.boardTitle ∧
    ∀ (bt t u : String),
      (mergeBoardState now (base.map (fun b => { b with boardTitle := bt }))
        { lo with boardTitle := t } { so with boardTitle := u }).2
        = (mergeBoardState now base lo so).2 := by
  constructor
  · unfold mergeBoardState
    dsimp only
    rw [if_neg]
    simpa using h
  · intro bt t u
    cases base <;> rfl

/-- The rollback snapshot captured by `SYNC_START`:
`{lists, cards, boardTitle}` of the pre-mutation state. -/
structure Snapshot where
  lists : List Entity
  cards : List (String × List Entity)
  boardTitle : String
deriving DecidableEq, Repr

/-- The reducer state of the sync-enabled `boardReducer`
(`src/context/boardReducer.js`). -/
structure RState where
  lists : List Entity
  cards : List (String × List Entity)
  boardTitle : String
  lastModified : Nat
  syncing : Bool
  error : Option String
  previousState : Option Snapshot
  baseState : Option BoardShape
  conflicts : List Conflict
  isOnline : Bool
deriving DecidableEq, Repr

/-- The module-level `initialState`; `loadTime` stands for the `Date.now()`
evaluated at module load and `navOnline` for `navigator.onLine`. -/
def initialState (navOnline : Bool) (loadTime : Nat) : RState :=
  { lists := [], cards := [], boardTitle := "My Kanban Board",
    lastModified := loadTime, syncing := false, error := none,
    previousState := none, baseState := none, conflicts := [],
    isOnline := navOnline }

/-- The `card` payload of `ADD_CARD`: the keys the caller may supply.
A `none` in `id` means the key is absent, so the generated id survives the
`{id: generateId(), ...card, ...}` spread. -/
structure CardInit where
  id : Option String := none
  title : Value := none
  description : Value := none
  tags : Value := none
  archived : Value := none
  order : Value := none
deriving DecidableEq, Repr

/-- The `updates` payload of `UPDATE_CARD`: present keys override the
card's fields in the `{...card, ...updates, ...}` spread; `lastModifiedAt`
and `version` are rewritten after the spread regardless. -/
structure CardUpdates where
  id : Option String := none
  title : Option Value := none
  description : Option Value := none
  tags : Option Value := none
  archived : Option Value := none
  order : Option Value := none
deriving DecidableEq, Repr

/-- The spread `{...card, ...updates}` over the modelled keys. -/
def applyUpdates (c : Entity) (u : CardUpdates) : Entity :=
  { c with
    id := u.id.getD c.id,
    title := u.title.getD c.title,
    description := u.description.getD c.description,
    tags := u.tags.getD c.tags,
    archived := u.archived.getD c.archived,
    order := u.order.getD c.order }

/-- JavaScript `(v || 1)` on a possibly-undefined numeric version:
`undefined` and `0` are falsy. -/
def jsOr1 : Option Int → Int
  | some v => if v = 0 then 1 else v
  | none => 1

/-- The reducer's action space. Every `ACTIONS` member has a constructor;
`unknown` stands for any action type outside `ACTIONS`, which falls to the
reducer's `default` case. -/
inductive Action where
  | addList (title : String)
  | renameList (listId title : String)
  | archiveList (listId : String)
  | restoreList (listId : String)
  | deleteList (listId : String)
  | addCard (listId : String) (card : CardInit)
  | updateCard (listId cardId : String) (updates : CardUpdates)
  | deleteCard (listId cardId : String)
  | moveCard (sourceListId destinationListId cardId : String) (destinationIndex : Nat)
  | reorderCard (listId : String) (startIndex endIndex : Nat)
  | loadBoard (payload : RState)
  | clearBoard
  | syncStart
  | syncSuccess
  | syncFailure (message : String)
  | rollback
  | clearError
  | setConflicts (conflicts : List Conflict) (baseState : Option BoardShape)
  | resolveConflict (conflictIndex : Nat) (resolution : String)
  | applyMerge (mergedState : MergedBoard)
  | unknown
deriving DecidableEq, Repr

/-- `boardReducer(state, action)` from `src/context/boardReducer.js`
(sync-enabled variant). `now` stands for `Date.now()`, `genId` for the
`generateId()` drawn by the creating cases, `navOnline` for the
`navigator.onLine` captured in `initialState`. The result is `none` when
the JavaScript would throw a `TypeError`: the card cases index
`state.cards[listId]` and call an array method on it, which throws when the
key is absent. In `REORDER_CARD`, an out-of-range `startIndex` makes the
JavaScript splice pair insert `undefined` into the card array, corrupting
it with a value outside the card type; that corner is also embedded as a
failure since a `List Entity` cannot hold `undefined`. -/
def boardReducer (now : Nat) (genId : String) (navOnline : Bool)
    (s : RState) (a : Action) : Option RState :=
  match a with
  | .addList title =>
      let newList : Entity :=
        { id := genId, title := some (.str title),
          order := some (.num s.lists.length), archived := some (.bool false),
          createdAt := some now, lastModifiedAt := some now, version := some 1 }
      some { s with lists := s.lists ++ [newList],
                    cards := alSet s.cards newList.id [],
                    lastModified := now }
  | .renameList listId title =>
      some { s with
        lists := s.lists.map (fun l =>
          if l.id == listId then
            { l with title := some (.str title), lastModifiedAt := some now,
                     version := some (jsOr1 l.version + 1) }
          else l),
        lastModified := now }
  | .archiveList listId =>
      some { s with
        lists := s.lists.map (fun l =>
          if l.id == listId then
            { l with archived := some (.bool true), lastModifiedAt := some now,
                     version := some (jsOr1 l.version + 1) }
          else l),
        lastModified := now }
  | .restoreList listId =>
      some { s with
        lists := s.lists.map (fun l =>
          if l.id == listId then
            { l with archived := some (.bool false), lastModifiedAt := some now,
                     version := some (jsOr1 l.version + 1) }
          else l),
        lastModified := now }
  | .deleteList listId =>
      some { s with lists := s.lists.filter (fun l => ¬ (l.id == listId)),
                    cards := alDel s.cards listId,
                    lastModified := now }
  | .addCard listId card =>
      let newCard : Entity :=
        { id := card.id.getD genId, title := card.title,
          description := card.description, tags := card.tags,
          archived := card.archived, order := card.order,
          createdAt := some now, lastModifiedAt := some now, version := some 1 }
      some { s with
        cards := alSet s.cards listId ((alGet s.cards listId).getD [] ++ [newCard]),
        lastModified := now }
  | .updateCard listId cardId updates =>
      match alGet s.cards listId with
      | none => none
      | some cs =>
          some { s with
            cards := alSet s.cards listId (cs.map (fun c =>
              if c.id == cardId then
                { applyUpdates c updates with
                    lastModifiedAt := some now,
                    version := some (jsOr1 c.version + 1) }
              else c)),
            lastModified := now }
  | .deleteCard listId cardId =>
      match alGet s.cards listId with
      | none => none
      | some cs =>
          some { s with
            cards := alSet s.cards listId (cs.filter (fun c => ¬ (c.id == cardId))),
            lastModified := now }
  | .moveCard sourceListId destinationListId cardId destinationIndex =>
      match alGet s.cards sourceListId with
      | none => none
      | some cs =>
          match cs.find? (fun c => c.id == cardId) with
          | none => some s
          | some card =>
              let sourceCards := cs.filter (fun c => ¬ (c.id == cardId))
              let destCards := (alGet s.cards destinationListId).getD []
              let destCards := destCards.take destinationIndex ++ [card] ++
                destCards.drop destinationIndex
              some { s with
                cards := alSet (alSet s.cards sourceListId sourceCards)
                  destinationListId destCards,
                lastModified := now }
  | .reorderCard listId startIndex endIndex =>
      match alGet s.cards listId with
      | none => none
      | some cs =>
          match cs.get? startIndex with
          | none => none
          | some removed =>
              let rest := cs.take startIndex ++ cs.drop (startIndex + 1)
              some { s with
                cards := alSet s.cards listId
                  (rest.take endIndex ++ [removed] ++ rest.drop endIndex),
                lastModified := now }
  | .loadBoard payload =>
      some { payload with lastModified := now }
  | .clearBoard =>
      some { initialState navOnline now with lastModified := now }
  | .syncStart =>
      some { s with syncing := true, error := none,
                    previousState := some ⟨s.lists, s.cards, s.boardTitle⟩ }
  | .syncSuccess =>
      some { s with syncing := false, previousState := none }
  | .syncFailure message =>
      some { s with syncing := false, error := some message }
  | .rollback =>
      match s.previousState with
      | none => some s
      | some p =>
          some { s with lists := p.lists, cards := p.cards,
                        boardTitle := p.boardTitle, syncing := false,
                        previousState := none, lastModified := now }
  | .clearError =>
      some { s with error := none }
  | .setConflicts conflicts baseState =>
      some { s with conflicts := conflicts, baseState := baseState,
                    syncing := false }
  | .resolveConflict conflictIndex resolution =>
      some { s with
        conflicts := s.conflicts.enum.map (fun p =>
          if p.1 == conflictIndex then { p.2 with resolution := some resolution }
          else p.2) }
  | .applyMerge mergedState =>
      some { s with lists := mergedState.lists, cards := mergedState.cards,
                    boardTitle := mergedState.boardTitle, conflicts := [],
                    baseState := none, syncing := false, lastModified := now }
  | .unknown => some s

/-- Decides whether an action type is one of the board mutations
(list/card cases) as opposed to the load/clear/sync/conflict machinery. -/
def isBoardMutation : Action → Bool
  | .addList _ | .renameList _ _ | .archiveList _ | .restoreList _
  | .deleteList _ | .addCard _ _ | .updateCard _ _ _ | .deleteCard _ _
  | .moveCard _ _ _ _ | .reorderCard _ _ _ => true
  | _ => false

/-- Decides whether an action type is one of the four card cases that index
`state.cards[listId]` and can hit a missing key. -/
def indexesCardsKey : Action → Bool
  | .updateCard _ _ _ | .deleteCard _ _ | .moveCard _ _ _ _
  | .reorderCard _ _ _ => true
  | _ => false

/-- C10. Dispatching `ROLLBACK` when no rollback snapshot is retained
(`previousState` is null) returns the state unchanged: no field is
modified. -/
theorem rollback_without_snapshot_noop (now : Nat) (genId : String)
    (navOnline : Bool) (s : RState) (h : s.previousState = none) :
    boardReducer now genId navOnline s .rollback = some s := by
  unfold boardReducer
  rw [h]

/-- C10 witness: on the initial state, which retains no snapshot,
`ROLLBACK` is the identity. -/
theorem rollback_without_snapshot_noop_witness :
    boardReducer 7 "g" true (initialState true 0) .rollback
      = some (initialState true 0) :=
  rollback_without_snapshot_noop 7 "g" true (initialState true 0) rfl

/-- C4 counterexample: `MOVE_CARD` whose source list id has no entry in
`cards` makes `state.cards[sourceListId].find(...)` throw a `TypeError`
(embedded as `none`), so the reducer is not total and this case is not a
no-op, refuting the claim as stated. -/
theorem boardReducer_total_cex :
    boardReducer 0 "g" true (initialState true 0)
      (.moveCard "l1" "l2" "c1" 0) = none := rfl

/-- C4 amended: the reducer never throws except in the four card cases
that index a missing `cards` key; an action of unknown type returns the
input state unchanged; and a `MOVE_CARD` whose card is absent from an
existing source list entry is a no-op returning the unchanged state. -/
theorem boardReducer_totality_amended (now : Nat) (genId : String)
    (navOnline : Bool) (s : RState) :
    (boardReducer now genId navOnline s .unknown = some s) ∧
    (∀ (src dst cid : String) (idx : Nat) (cs : List Entity),
      alGet s.cards src = some cs →
      cs.find? (fun c => c.id == cid) = none →
      boardReducer now genId navOnline s (.moveCard src dst cid idx) = some s) ∧
    (∀ a : Action, indexesCardsKey a = false →
      (boardReducer now genId navOnline s a).isSome) := by
  refine ⟨rfl, ?_, ?_⟩
  · intro src dst cid idx cs h1 h2
    simp only [boardReducer, h1, h2]
  · intro a ha
    cases a <;> first
      | rfl
      | (simp only [boardReducer]; cases s.previousState <;> rfl)
      | simp [indexesCardsKey] at ha

/-- C4 witness: on the initial state, an unknown action is the identity, a
`MOVE_CARD` from an existing but cardless list entry is a no-op, and
`ADD_LIST` (which never indexes a missing key) succeeds. -/
theorem boardReducer_totality_amended_witness :
    (boardReducer 0 "g" true { initialState true 0 with cards := [("l1", [])] }
        .unknown = some { initialState true 0 with cards := [("l1", [])] }) ∧
    (boardReducer 0 "g" true { initialState true 0 with cards := [("l1", [])] }
        (.moveCard "l1" "l2" "c1" 0)
      = some { initialState true 0 with cards := [("l1", [])] }) ∧
    (boardReducer 0 "g" true { initialState true 0 with cards := [("l1", [])] }
        (.addList "L")).isSome :=
  ⟨(boardReducer_totality_amended 0 "g" true _).1,
   (boardReducer_totality_amended 0 "g" true _).2.1 "l1" "l2" "c1" 0 [] rfl rfl,
   (boardReducer_totality_amended 0 "g" true _).2.2 (.addList "L") rfl⟩

theorem boardMutation_preserves_previousState (now : Nat) (genId : String)
    (navOnline : Bool) (s : RState) (m : Action) (s2 : RState)
    (hm : isBoardMutation m = true)
    (h : boardReducer now genId navOnline s m = some s2) :
    s2.previousState = s.previousState := by
  cases m <;> simp only [isBoardMutation] at hm <;>
    simp only [boardReducer] at h <;>
    (try split at h) <;> (try split at h) <;>
    (try cases h) <;> simp_all

/-- C6 counterexample: the claim fails as a full-state identity. Starting
from a state whose `error` is non-null, `SYNC_START` clears the error and
`ROLLBACK` leaves it cleared (it also refreshes `lastModified`), so the
round trip does not restore the exact pre-mutation state. -/
theorem rollback_exact_restore_cex :
    (((boardReducer 1 "g" true
          { initialState true 0 with error := some "boom" } .syncStart).bind
        (fun s1 => boardReducer 2 "g" true s1 (.renameList "x" "T"))).bind
      (fun s2 => boardReducer 3 "g" true s2 .rollback)) ≠
      some { initialState true 0 with error := some "boom" } := by
  decide

/-- C6 amended: for every board mutation applied optimistically after
`SYNC_START`, `ROLLBACK` restores the document content exactly — `lists`,
`cards` and `boardTitle` all return to their pre-mutation values, never a
partially-applied mix — while the transient fields differ: `lastModified`
is refreshed, `syncing` is reset and the `error` cleared by `SYNC_START`
stays cleared. -/
theorem optimistic_rollback_restores_document (now1 now2 now3 : Nat)
    (g1 g2 g3 : String) (nav : Bool) (s : RState) (m : Action)
    (s1 s2 s3 : RState) (hm : isBoardMutation m = true)
    (h1 : boardReducer now1 g1 nav s .syncStart = some s1)
    (h2 : boardReducer now2 g2 nav s1 m = some s2)
    (h3 : boardReducer now3 g3 nav s2 .rollback = some s3) :
    s3.lists = s.lists ∧ s3.cards = s.cards ∧ s3.boardTitle = s.boardTitle ∧
    s3.syncing = false ∧ s3.previousState = none := by
  have hs1 : s1 = { s with syncing := true, error := none, previousState := some ⟨s.lists, s.cards, s.boardTitle⟩ } := by
    simp only [boardReducer] at h1
    exact (Option.some.inj h1).symm
  have hprev : s2.previousState = s1.previousState :=
    boardMutation_preserves_previousState now2 g2 nav s1 m s2 hm h2
  rw [hs1] at hprev
  simp only [boardReducer] at h3
  rw [hprev] at h3
  have hs3 := (Option.some.inj h3).symm
  rw [hs3]
  exact ⟨rfl, rfl, rfl, rfl, rfl⟩

/-- C6 witness: a concrete optimistic `DELETE_LIST` followed by `ROLLBACK`
lands back on the initial document content. -/
theorem optimistic_rollback_restores_document_witness :
    ((boardReducer 3 "g" true
        ((boardReducer 2 "g" true
          ((boardReducer 1 "g" true (initialState true 0) .syncStart).getD
            (initialState true 0))
          (.deleteList "x")).getD (initialState true 0))
        .rollback).getD (initialState true 0)).lists = (initialState true 0).lists ∧
    ((boardReducer 3 "g" true
        ((boardReducer 2 "g" true
          ((boardReducer 1 "g" true (initialState true 0) .syncStart).getD
            (initialState true 0))
          (.deleteList "x")).getD (initialState true 0))
        .rollback).getD (initialState true 0)).boardTitle
      = (initialState true 0).boardTitle := by
  have h := optimistic_rollback_restores_document 1 2 3 "g" "g" "g" true
    (initialState true 0) (.deleteList "x") _ _ _ rfl rfl rfl rfl
  exact ⟨h.1, h.2.2.1⟩

/-- The keys of a string-keyed object. -/
def alKeys (m : List (String × α)) : List String := m.map (fun p => p.1)

/-- All card entities across every entry of the `cards` map, in order. -/
def alJoin (m : List (String × List Entity)) : List Entity :=
  (m.map (fun p => p.2)).flatten

/-- All card ids across every entry of the `cards` map. -/
def allCardIds (m : List (String × List Entity)) : List String :=
  (alJoin m).map (fun c => c.id)

/-- The document invariant of the claim: list ids are unique and coincide
with the keys of `cards`, and every card id appears in exactly one list's
array (equivalently the concatenation of all card arrays has no duplicate
id, and cards live only under list keys). -/
def BoardInv (s : RState) : Prop :=
  (alKeys s.cards).Nodup ∧
  (s.lists.map (fun l => l.id)).Nodup ∧
  (∀ l ∈ s.lists, l.id ∈ alKeys s.cards) ∧
  (∀ k ∈ alKeys s.cards, k ∈ s.lists.map (fun l => l.id)) ∧
  (allCardIds s.cards).Nodup

instance (s : RState) : Decidable (BoardInv s) := by
  unfold BoardInv
  infer_instance

theorem mem_alKeys_of_alGet {m : List (String × α)} {k : String} {v : α}
    (h : alGet m k = some v) : k ∈ alKeys m := by
  unfold alGet at h
  rcases Option.map_eq_some'.mp h with ⟨p, hfind, hv⟩
  have hbeq := List.find?_some hfind
  have hmem := List.mem_of_find?_eq_some hfind
  have : p.1 = k := by simpa using hbeq
  exact this ▸ List.mem_map.mpr ⟨p, hmem, rfl⟩

theorem alGet_isSome_of_mem {m : List (String × α)} {k : String}
    (h : k ∈ alKeys m) : ∃ v, alGet m k = some v := by
  induction m with
  | nil => simp [alKeys] at h
  | cons hd tl ih =>
      by_cases hk : hd.1 = k
      · exact ⟨hd.2, by simp [alGet, List.find?, hk]⟩
      · have : k ∈ alKeys tl := by
          rcases List.mem_map.mp h with ⟨p, hp, hkp⟩
          rcases List.mem_cons.mp hp with h1 | h1
          · exact absurd (h1 ▸ hkp) hk
          · exact List.mem_map.mpr ⟨p, h1, hkp⟩
        rcases ih this with ⟨v, hv⟩
        refine ⟨v, ?_⟩
        simpa [alGet, List.find?, show (hd.1 == k) = false by simpa using hk]
          using hv

theorem any_key_of_mem {m : List (String × α)} {k : String}
    (h : k ∈ alKeys m) : m.any (fun p => p.1 == k) = true := by
  rcases List.mem_map.mp h with ⟨p, hp, hkp⟩
  exact List.any_eq_true.mpr ⟨p, hp, by simpa using hkp⟩

theorem map_setFun_eq_self {m : List (String × α)} {k : String} {v : α}
    (h : k ∉ alKeys m) :
    m.map (fun p => if p.1 == k then (k, v) else p) = m := by
  induction m with
  | nil => rfl
  | cons hd tl ih =>
      have hhd : ¬ hd.1 = k := fun he => h (List.mem_map.mpr ⟨hd, by simp, he⟩)
      have htl : k ∉ alKeys tl := fun ht => by
        rcases List.mem_map.mp ht with ⟨p, hp, hkp⟩
        exact h (List.mem_map.mpr ⟨p, List.mem_cons_of_mem hd hp, hkp⟩)
      have hbeq : (hd.1 == k) = false := by simpa using hhd
      rw [List.map_cons, hbeq]
      simp only [Bool.false_eq_true, if_false]
      rw [ih htl]

theorem alKeys_alSet_of_mem {m : List (String × α)} {k : String} (v : α)
    (h : k ∈ alKeys m) : alKeys (alSet m k v) = alKeys m := by
  unfold alSet
  rw [if_pos (any_key_of_mem h)]
  unfold alKeys
  rw [List.map_map]
  apply List.map_congr_left
  intro p _
  by_cases hp : p.1 = k
  · simp [hp]
  · simp [hp]

theorem countP_alJoin_alSet (p : Entity → Bool) :
    ∀ (m : List (String × List Entity)) (k : String) (v cs : List Entity),
      (alKeys m).Nodup → alGet m k = some cs →
      (alJoin (alSet m k v)).countP p + cs.countP p =
        (alJoin m).countP p + v.countP p := by
  intro m
  induction m with
  | nil => intro k v cs _ h; simp [alGet] at h
  | cons hd tl ih =>
      intro k v cs hnd hget
      have hnd' : (hd.1 :: alKeys tl).Nodup := hnd
      have hnd1 : hd.1 ∉ alKeys tl := (List.nodup_cons.mp hnd').1
      have hndtl : (alKeys tl).Nodup := (List.nodup_cons.mp hnd').2
      by_cases hk : hd.1 = k
      · have hcs : cs = hd.2 := by
          simp [alGet, List.find?, show (hd.1 == k) = true by simpa using hk]
            at hget
          exact hget.symm
        have hknot : k ∉ alKeys tl := hk ▸ hnd1
        unfold alSet
        rw [if_pos (any_key_of_mem (by simp [alKeys, hk]))]
        rw [List.map_cons, map_setFun_eq_self hknot]
        subst hcs
        simp only [alJoin, List.map_cons, List.flatten_cons, List.countP_append,
          show (hd.1 == k) = true by simpa using hk, if_true]
        omega
      · have hget' : alGet tl k = some cs := by
          simpa [alGet, List.find?, show (hd.1 == k) = false by simpa using hk]
            using hget
        have hmem : k ∈ alKeys tl := mem_alKeys_of_alGet hget'
        have ihs := ih k v cs hndtl hget'
        have hany : tl.any (fun q => q.1 == k) = true := any_key_of_mem hmem
        have hset : alSet (hd :: tl) k v = hd :: alSet tl k v := by
          unfold alSet
          rw [if_pos (by simp [List.any_cons, hany]),
              if_pos hany, List.map_cons,
              if_neg (by simpa using hk)]
        rw [hset]
        simp only [alJoin, List.map_cons, List.flatten_cons, List.countP_append]
        simp only [alJoin] at ihs
        omega

theorem countP_insertAt (l : List α) (i : Nat) (a : α) (p : α → Bool) :
    (l.take i ++ [a] ++ l.drop i).countP p =
      l.countP p + (if p a then 1 else 0) := by
  rw [List.countP_append, List.countP_append]
  have := List.take_append_drop i l
  have hl : (l.take i).countP p + (l.drop i).countP p = l.countP p := by
    rw [← List.countP_append, this]
  simp only [List.countP_cons, List.countP_nil]
  omega

theorem nodup_allCardIds_iff (m : List (String × List Entity)) :
    (allCardIds m).Nodup ↔
      ∀ cid : String, (alJoin m).countP (fun c => c.id == cid) ≤ 1 := by
  rw [allCardIds, List.nodup_iff_count_le_one]
  constructor
  · intro h cid
    have := h cid
    rwa [List.count_eq_countP, List.countP_map] at this
  · intro h a
    rw [List.count_eq_countP, List.countP_map]
    exact h a

theorem alGet_alSet_ne (k k' : String) (v : α) (h : ¬ k' = k) :
    ∀ m : List (String × α), alGet (alSet m k v) k' = alGet m k' := by
  have hfun : ∀ m : List (String × α),
      alGet (m.map (fun p => if p.1 == k then (k, v) else p)) k' = alGet m k' := by
    intro m
    induction m with
    | nil => rfl
    | cons hd tl ih =>
        by_cases hk : hd.1 = k
        · have h1 : (hd.1 == k) = true := by simpa using hk
          have h2 : (k == k') = false := by simpa using fun he => h he.symm
          have h3 : (hd.1 == k') = false := by
            simpa using fun he => h (by rw [← he, hk])
          simp only [List.map_cons, h1, if_true, alGet, List.find?, h2, h3] at ih ⊢
          exact ih
        · have h1 : (hd.1 == k) = false := by simpa using hk
          simp only [List.map_cons, h1, Bool.false_eq_true, if_false, alGet,
            List.find?] at ih ⊢
          cases hbeq : (hd.1 == k') <;> simp [hbeq] at ih ⊢
          exact ih
  intro m
  unfold alSet
  split_ifs with hany
  · exact hfun m
  · unfold alGet
    rw [List.find?_append]
    cases hf : m.find? (fun p => p.1 == k') with
    | some p => simp [hf]
    | none =>
        simp only [hf, Option.none_or]
        simp [List.find?, show (k == k') = false by simpa using fun he => h he.symm,
          alGet]

theorem countP_filter_ne (cs : List Entity) (cid q : String) :
    (cs.filter (fun c => ¬ (c.id == cid))).countP (fun c => c.id == q) =
      if q = cid then 0 else cs.countP (fun c => c.id == q) := by
  induction cs with
  | nil => simp
  | cons c cs ih =>
      by_cases hc : c.id = cid <;> by_cases hq : c.id = q <;>
        by_cases hqc : q = cid <;>
        simp_all [List.filter_cons, List.countP_cons]

theorem countP_pos_of_find? {cs : List Entity} {cid : String} {card : Entity}
    (h : cs.find? (fun c => c.id == cid) = some card) :
    1 ≤ cs.countP (fun c => c.id == cid) := by
  have hmem := List.mem_of_find?_eq_some h
  have hp := List.find?_some h
  exact List.countP_pos_iff.mpr ⟨card, hmem, hp⟩

theorem countP_eq_zero_of_not_mem_allCardIds
    {m : List (String × List Entity)} {cid : String}
    (h : cid ∉ allCardIds m) :
    (alJoin m).countP (fun c => c.id == cid) = 0 := by
  rw [List.countP_eq_zero]
  intro c hc
  simp only [beq_iff_eq]
  intro he
  exact h (List.mem_map.mpr ⟨c, hc, he⟩)

/-- A concrete well-formed board: one list `"l1"` holding one card `"c1"`. -/
def dupCexState : RState :=
  { initialState true 0 with
      lists := [{ id := "l1" }],
      cards := [("l1", [{ id := "c1" }])] }

/-- C3 counterexample: on a well-formed board, `MOVE_CARD` with equal
source and destination list ids duplicates the moved card — the
destination array is computed from the unfiltered original and the later
object-literal key wins — so the invariant is not preserved for every
source/destination pair. -/
theorem moveCard_invariant_cex :
    BoardInv dupCexState ∧
    (boardReducer 1 "g" true dupCexState (.moveCard "l1" "l1" "c1" 1)).isSome ∧
    ¬ BoardInv ((boardReducer 1 "g" true dupCexState
        (.moveCard "l1" "l1" "c1" 1)).getD dupCexState) := by
  refine ⟨by decide, by decide, by decide⟩

theorem nodup_cards_after_add (cards : List (String × List Entity))
    (lid : String) (cs : List Entity) (newCard : Entity)
    (hKeysNd : (alKeys cards).Nodup)
    (hget : alGet cards lid = some cs)
    (hfresh : newCard.id ∉ allCardIds cards)
    (hCardsNd : (allCardIds cards).Nodup) :
    (allCardIds (alSet cards lid (cs ++ [newCard]))).Nodup := by
  rw [nodup_allCardIds_iff]
  intro q
  have happ := countP_alJoin_alSet (fun c => c.id == q) cards lid
    (cs ++ [newCard]) cs hKeysNd hget
  rw [List.countP_append] at happ
  have hbound := (nodup_allCardIds_iff cards).mp hCardsNd q
  by_cases hq : newCard.id = q
  · have hzero : (alJoin cards).countP (fun c => c.id == q) = 0 :=
      countP_eq_zero_of_not_mem_allCardIds (hq ▸ hfresh)
    have hone : ([newCard].countP (fun c => c.id == q)) = 1 := by simp [hq]
    omega
  · have hzero : ([newCard].countP (fun c => c.id == q)) = 0 := by simp [hq]
    omega

theorem nodup_cards_after_move (cards : List (String × List Entity))
    (src dst cid : String) (cs : List Entity) (card : Entity) (idx : Nat)
    (hKeysNd : (alKeys cards).Nodup) (hne : ¬ src = dst)
    (hgetsrc : alGet cards src = some cs)
    (hdstmem : dst ∈ alKeys cards)
    (hfind : cs.find? (fun c => c.id == cid) = some card)
    (hCardsNd : (allCardIds cards).Nodup) :
    (allCardIds (alSet (alSet cards src (cs.filter (fun c => ¬ (c.id == cid))))
      dst (((alGet cards dst).getD []).take idx ++ [card] ++
           ((alGet cards dst).getD []).drop idx))).Nodup := by
  obtain ⟨ds, hgetdst⟩ := alGet_isSome_of_mem hdstmem
  have hcardid : card.id = cid := by simpa using List.find?_some hfind
  have hkeys1 : alKeys (alSet cards src (cs.filter (fun c => ¬ (c.id == cid)))) =
      alKeys cards := alKeys_alSet_of_mem _ (mem_alKeys_of_alGet hgetsrc)
  have hnd1 : (alKeys (alSet cards src (cs.filter (fun c => ¬ (c.id == cid))))).Nodup := by
    rw [hkeys1]; exact hKeysNd
  have hget1 : alGet (alSet cards src (cs.filter (fun c => ¬ (c.id == cid)))) dst =
      some ds := by
    rw [alGet_alSet_ne src dst _ (fun he => hne he.symm)]
    exact hgetdst
  rw [hgetdst, Option.getD_some, nodup_allCardIds_iff]
  intro q
  have happ1 := countP_alJoin_alSet (fun c => c.id == q) cards src
    (cs.filter (fun c => ¬ (c.id == cid))) cs hKeysNd hgetsrc
  have happ2 := countP_alJoin_alSet (fun c => c.id == q)
    (alSet cards src (cs.filter (fun c => ¬ (c.id == cid)))) dst
    (ds.take idx ++ [card] ++ ds.drop idx) ds hnd1 hget1
  have hins := countP_insertAt ds idx card (fun c => c.id == q)
  have hfilter := countP_filter_ne cs cid q
  have hbound := (nodup_allCardIds_iff cards).mp hCardsNd q
  by_cases hq : q = cid
  · have hpos := countP_pos_of_find? hfind
    have hcardq : (card.id == q) = true := by simp [hcardid, hq]
    have hins2 : (ds.take idx ++ [card] ++ ds.drop idx).countP
        (fun c => c.id == q) = ds.countP (fun c => c.id == q) + 1 := by
      rw [hins, hcardq]
      simp
    rw [if_pos hq] at hfilter
    subst hq
    omega
  · have hcardq : (card.id == q) = false := by
      simp only [hcardid, beq_eq_false_iff_ne, ne_eq]
      exact fun he => hq he.symm
    have hins2 : (ds.take idx ++ [card] ++ ds.drop idx).countP
        (fun c => c.id == q) = ds.countP (fun c => c.id == q) := by
      rw [hins, hcardq]
      simp
    rw [if_neg hq] at hfilter
    omega

/-- C3. As stated the claim is false (see the counterexample above):
`MOVE_CARD` with equal source and destination duplicates the card, and
`ADD_CARD`/`MOVE_CARD` aimed at a key that is not a list id park cards
outside every list. Amended: from any state satisfying the invariant,
`ADD_CARD` targeting an existing list with a fresh effective card id, and
`MOVE_CARD` between two distinct existing list entries, both return a
state that still satisfies the invariant — in particular the moved card is
neither duplicated nor lost. -/
theorem boardReducer_inv_preserved (now : Nat) (gid : String) (nav : Bool)
    (s : RState) (hInv : BoardInv s) :
    (∀ (lid : String) (ci : CardInit),
        lid ∈ alKeys s.cards →
        ci.id.getD gid ∉ allCardIds s.cards →
        (boardReducer now gid nav s (.addCard lid ci)).isSome = true ∧
        BoardInv ((boardReducer now gid nav s (.addCard lid ci)).getD s)) ∧
    (∀ (src dst cid : String) (idx : Nat),
        ¬ src = dst → src ∈ alKeys s.cards → dst ∈ alKeys s.cards →
        (boardReducer now gid nav s (.moveCard src dst cid idx)).isSome = true ∧
        BoardInv ((boardReducer now gid nav s (.moveCard src dst cid idx)).getD s)) := by
  obtain ⟨hKeysNd, hListsNd, hListsKeys, hKeysLists, hCardsNd⟩ := hInv
  constructor
  · intro lid ci hlid hfresh
    obtain ⟨cs, hget⟩ := alGet_isSome_of_mem hlid
    refine ⟨rfl, ?_⟩
    simp only [boardReducer, Option.getD_some, hget]
    refine ⟨?_, hListsNd, ?_, ?_, ?_⟩
    · rw [alKeys_alSet_of_mem _ hlid]
      exact hKeysNd
    · intro l hl
      rw [alKeys_alSet_of_mem _ hlid]
      exact hListsKeys l hl
    · intro k hk
      rw [alKeys_alSet_of_mem _ hlid] at hk
      exact hKeysLists k hk
    · exact nodup_cards_after_add s.cards lid cs _ hKeysNd hget hfresh hCardsNd
  · intro src dst cid idx hne hsrc hdst
    obtain ⟨cs, hget⟩ := alGet_isSome_of_mem hsrc
    cases hfind : cs.find? (fun c => c.id == cid) with
    | none =>
        refine ⟨?_, ?_⟩ <;>
          simp only [boardReducer, hget, hfind, Option.isSome_some,
            Option.getD_some]
        exact ⟨hKeysNd, hListsNd, hListsKeys, hKeysLists, hCardsNd⟩
    | some card =>
        have haux : alKeys (alSet s.cards src
            (cs.filter (fun c => ¬ (c.id == cid)))) = alKeys s.cards :=
          alKeys_alSet_of_mem _ hsrc
        have hdst1 : dst ∈ alKeys (alSet s.cards src
            (cs.filter (fun c => ¬ (c.id == cid)))) := by rw [haux]; exact hdst
        have hkeys2 : alKeys (alSet (alSet s.cards src
            (cs.filter (fun c => ¬ (c.id == cid)))) dst
            (((alGet s.cards dst).getD []).take idx ++ [card] ++
             ((alGet s.cards dst).getD []).drop idx)) = alKeys s.cards :=
          (alKeys_alSet_of_mem _ hdst1).trans haux
        refine ⟨?_, ?_⟩ <;>
          simp only [boardReducer, hget, hfind, Option.isSome_some,
            Option.getD_some]
        refine ⟨?_, hListsNd, ?_, ?_, ?_⟩
        · rw [hkeys2]; exact hKeysNd
        · intro l hl
          rw [hkeys2]
          exact hListsKeys l hl
        · intro k hk
          rw [hkeys2] at hk
          exact hKeysLists k hk
        · exact nodup_cards_after_move s.cards src dst cid cs card idx
            hKeysNd hne hget hdst hfind hCardsNd

/-- A concrete well-formed two-list board used to witness the amended C3
statement. -/
def moveWitState : RState :=
  { initialState true 0 with
      lists := [{ id := "l1" }, { id := "l2" }],
      cards := [("l1", [{ id := "c1" }]), ("l2", [])] }

/-- C3 witness: on a concrete two-list board, a fresh `ADD_CARD` into
`"l2"` and a `MOVE_CARD` of `"c1"` from `"l1"` to `"l2"` both succeed and
preserve the invariant. -/
theorem boardReducer_inv_preserved_witness :
    ((boardReducer 1 "g" true moveWitState (.addCard "l2" {})).isSome = true ∧
      BoardInv ((boardReducer 1 "g" true moveWitState (.addCard "l2" {})).getD
        moveWitState)) ∧
    ((boardReducer 1 "g" true moveWitState
        (.moveCard "l1" "l2" "c1" 0)).isSome = true ∧
      BoardInv ((boardReducer 1 "g" true moveWitState
        (.moveCard "l1" "l2" "c1" 0)).getD moveWitState)) :=
  ⟨(boardReducer_inv_preserved 1 "g" true moveWitState (by decide)).1 "l2" {}
      (by decide) (by decide),
   (boardReducer_inv_preserved 1 "g" true moveWitState (by decide)).2 "l1" "l2"
      "c1" 0 (by decide) (by decide) (by decide)⟩

/-- C9 witness: with an empty board on both sides and a non-empty server
title, the merged title is the server's. -/
theorem mergeBoardState_boardTitle_server_wins_witness :
    (mergeBoardState 0 none ⟨[], [], "Local"⟩ ⟨[], [], "Server"⟩).1.boardTitle
      = "Server" :=
  (mergeBoardState_boardTitle_server_wins 0 none ⟨[], [], "Local"⟩
    ⟨[], [], "Server"⟩ (by decide)).1

/-- An item of the persisted sync queue (`useOfflineSync`): only the id is
relevant to the queue-processing control flow. -/
structure QueueItem where
  id : String
  timestamp : Nat := 0
deriving DecidableEq, Repr

/-- The retry bound `maxRetries = 3` of `useOfflineSync`. -/
def maxRetries : Nat := 3

/-- The base backoff delay `baseDelay = 1000` (one second) of
`useOfflineSync`. -/
def baseDelay : Nat := 1000

/-- `getRetryDelay()`: `baseDelay * Math.pow(2, retryCountRef.current)`,
reading the counter's current value. -/
def getRetryDelay (retryCount : Nat) : Nat := baseDelay * 2 ^ retryCount

/-- `removeFromSyncQueue(itemId)` from `src/services/syncQueue.js`. -/
def removeFromSyncQueue (queue : List QueueItem) (itemId : String) :
    List QueueItem :=
  queue.filter (fun item => ¬ (item.id == itemId))

/-- Observable outcome of one `processSyncQueue()` invocation: the
persisted queue afterwards, the shared retry counter, the backoff delays
awaited (in order), and whether the final failure was rethrown. -/
structure QueueRunResult where
  queue : List QueueItem
  retryCount : Nat
  delays : List Nat
  threw : Bool
deriving DecidableEq, Repr

/-- The `for (const item of queue)` loop of `processSyncQueue` over the
snapshot taken at entry, threading the persisted queue and the shared
`retryCountRef`. `ok item.id` is the outcome of `item.apiCall()` during
this invocation. On success the item is removed and the counter reset; on
failure with budget left the counter is incremented and the new-value
delay awaited (the item stays queued); otherwise the item is removed, the
counter reset, and the error rethrown, aborting the loop. -/
def runSyncQueue (ok : String → Bool) :
    List QueueItem → List QueueItem → Nat → QueueRunResult
  | [], persisted, rc => ⟨persisted, rc, [], false⟩
  | item :: rest, persisted, rc =>
      if ok item.id then
        runSyncQueue ok rest (removeFromSyncQueue persisted item.id) 0
      else if rc < maxRetries then
        let r := runSyncQueue ok rest persisted (rc + 1)
        ⟨r.queue, r.retryCount, getRetryDelay (rc + 1) :: r.delays, r.threw⟩
      else
        ⟨removeFromSyncQueue persisted item.id, 0, [], true⟩

/-- `processSyncQueue()` from `useOfflineSync`: iterates over the queue
snapshot with the persisted queue initially equal to it. -/
def processSyncQueue (ok : String → Bool) (queue : List QueueItem)
    (retryCount : Nat) : QueueRunResult :=
  runSyncQueue ok queue queue retryCount

/-- C7 counterexample: for an always-failing item the first backoff delay
is 2000 ms, not the claimed 1000 ms — the counter is incremented before
`getRetryDelay()` reads it, so the delays are 2s/4s/8s rather than
1s/2s/4s. -/
theorem processSyncQueue_delay_cex :
    (processSyncQueue (fun _ => false) [⟨"op1", 0⟩] 0).delays = [2000] ∧
    (2000 : Nat) ≠ 1000 := by
  refine ⟨rfl, by decide⟩

/-- C7 amended: an operation whose remote invocation keeps failing is
retried with exponential backoff delays of 2s, 4s and 8s (the shared
counter is incremented before the delay is computed); on the fourth
failing invocation — the counter having reached `maxRetries = 3` — the
item is removed from the queue, the counter resets, and the error is
rethrown (reported) instead of being retried forever. -/
theorem processSyncQueue_retry_exhaustion (item : QueueItem) :
    processSyncQueue (fun _ => false) [item] 0 = ⟨[item], 1, [2000], false⟩ ∧
    processSyncQueue (fun _ => false) [item] 1 = ⟨[item], 2, [4000], false⟩ ∧
    processSyncQueue (fun _ => false) [item] 2 = ⟨[item], 3, [8000], false⟩ ∧
    processSyncQueue (fun _ => false) [item] 3 = ⟨[], 0, [], true⟩ := by
  refine ⟨?_, ?_, ?_, ?_⟩ <;>
    simp [processSyncQueue, runSyncQueue, getRetryDelay, baseDelay,
      maxRetries, removeFromSyncQueue]

/-- One history entry `{state, timestamp}` of `useUndoRedo`. -/
structure HistoryEntry (α : Type) where
  state : α
  timestamp : Nat
deriving DecidableEq, Repr

/-- The history state of `useUndoRedo`: the entry stack, the current
pointer, and the hook's `initialState` (the fallback of the
`history[currentIndex]?.state || initialState` synchronisation). -/
structure UndoRedo (α : Type) where
  history : List (HistoryEntry α)
  currentIndex : Nat
  initial : α
deriving DecidableEq, Repr

/-- The synchronised `currentState`:
`history[currentIndex]?.state || initialState` (state snapshots are
objects, hence truthy, so `||` is an undefined-fallback). -/
def currentState (h : UndoRedo α) : α :=
  ((h.history[h.currentIndex]?).map (fun e => e.state)).getD h.initial

/-- `canUndo`: `currentIndex > 0`. -/
def canUndo (h : UndoRedo α) : Bool := decide (0 < h.currentIndex)

/-- `canRedo`: `currentIndex < history.length - 1`. -/
def canRedo (h : UndoRedo α) : Bool :=
  decide (h.currentIndex < h.history.length - 1)

/-- `undo()`: no-op returning the current state at the beginning; else
decrement the pointer and return `history[currentIndex - 1]?.state ||
currentState`. -/
def undo (h : UndoRedo α) : UndoRedo α × α :=
  if canUndo h then
    ({ h with currentIndex := h.currentIndex - 1 },
      ((h.history[h.currentIndex - 1]?).map (fun e => e.state)).getD
        (currentState h))
  else
    (h, currentState h)

/-- `redo()`: symmetric to `undo()` at the tail. -/
def redo (h : UndoRedo α) : UndoRedo α × α :=
  if canRedo h then
    ({ h with currentIndex := h.currentIndex + 1 },
      ((h.history[h.currentIndex + 1]?).map (fun e => e.state)).getD
        (currentState h))
  else
    (h, currentState h)

/-- C8. For every well-formed history (pointer within the stack) with
`canUndo` true, `undo(); redo()` is the identity on the current state: the
state `redo()` returns equals the current state before the `undo`, and the
pointer returns to its previous position. -/
theorem undo_redo_identity {α : Type} (h : UndoRedo α)
    (hwf : h.currentIndex < h.history.length) (hcan : canUndo h = true) :
    (redo (undo h).1).2 = currentState h ∧
    (redo (undo h).1).1.currentIndex = h.currentIndex := by
  have hpos : 0 < h.currentIndex := by simpa [canUndo] using hcan
  have hcanRedo : canRedo { h with currentIndex := h.currentIndex - 1 } = true := by
    simp only [canRedo, decide_eq_true_eq]
    omega
  have hidx : h.currentIndex - 1 + 1 = h.currentIndex := by omega
  rw [undo, if_pos hcan]
  rw [redo, if_pos hcanRedo]
  constructor
  · simp only [hidx, currentState, List.getElem?_eq_getElem hwf, Option.map_some',
      Option.getD_some]
  · simpa using hidx

/-- A concrete two-entry history with the pointer at the tail. -/
def ur8 : UndoRedo Nat := ⟨[⟨10, 0⟩, ⟨20, 1⟩], 1, 0⟩

/-- C8 witness: on a concrete two-entry history, undo-then-redo returns
state 20 (the pre-undo current state) and the pointer returns to 1. -/
theorem undo_redo_identity_witness :
    (redo (undo ur8).1).2 = currentState ur8 ∧
    (redo (undo ur8).1).1.currentIndex = ur8.currentIndex :=
  undo_redo_identity ur8 (by decide) (by decide)

/-- The board-shaped projection of the reducer state that
`mergeBoardState` reads when the provider passes `state` as the local (or
fallback base) snapshot. -/
def RState.toShape (s : RState) : BoardShape :=
  ⟨s.lists, s.cards, s.boardTitle⟩

/-- The board-shaped projection of a merged document, used when
`baseStateRef.current` (the last applied merge result) serves as the base
snapshot of the next cycle. -/
def MergedBoard.toShape (m : MergedBoard) : BoardShape :=
  ⟨m.lists, m.cards, m.boardTitle⟩

/-- A queue item as seen by `performSync`'s drain loop: `ok` is the
outcome of `item.apiCall()` during this cycle. -/
structure SyncQueueItem where
  id : String
  ok : Bool
deriving DecidableEq, Repr

/-- Observable outcome of one `performSync()` cycle: the reducer state
after the dispatches, `baseStateRef.current`, the persisted queue, and the
ids whose remote invocation was attempted (in order). -/
structure SyncCycleResult where
  state : RState
  baseRef : Option MergedBoard
  queue : List SyncQueueItem
  attempted : List String
deriving DecidableEq, Repr

/-- `performSync` from `src/context/BoardProvider.jsx`. `fetched` is the
result of `api.getBoard()` (`none` when it throws, in which case the outer
catch leaves everything untouched). The guard skips the cycle while a sync
is running or conflicts are pending. After the merge, conflicts are either
published via `SET_CONFLICTS` (base ref unchanged) or the merged document
is applied via `APPLY_MERGE` and recorded as the new base; the queue loop
then runs UNCONDITIONALLY — it is not inside the no-conflict branch — so
every item's call is attempted and successful items are removed even when
conflicts were just published. -/
def performSync (now : Nat) (gid : String) (nav : Bool) (st : RState)
    (baseRef : Option MergedBoard) (fetched : Option BoardShape)
    (queue : List SyncQueueItem) : SyncCycleResult :=
  if st.syncing || st.conflicts.length > 0 then
    ⟨st, baseRef, queue, []⟩
  else
    match fetched with
    | none => ⟨st, baseRef, queue, []⟩
    | some server =>
        let base := (baseRef.map MergedBoard.toShape).getD st.toShape
        let r := mergeBoardState now (some base) st.toShape server
        let afterDispatch :=
          if r.2.length > 0 then
            ((boardReducer now gid nav st (.setConflicts r.2 (some server))).getD st,
              baseRef)
          else
            ((boardReducer now gid nav st (.applyMerge r.1)).getD st, some r.1)
        ⟨afterDispatch.1, afterDispatch.2,
          queue.filter (fun i => ¬ i.ok), queue.map (fun i => i.id)⟩

/-- A concrete local state whose only list diverges from both the recorded
base and the server, so the next merge must report a conflict. -/
def conflictLocalState : RState :=
  { initialState true 0 with
      lists := [{ id := "l1", title := some (.str "A"), version := some 2 }],
      cards := [("l1", [])] }

/-- The recorded base of the conflict scenario: title `"O"`, version 1. -/
def conflictBaseRef : MergedBoard :=
  ⟨[{ id := "l1", title := some (.str "O"), version := some 1 }],
    [("l1", [])], "My Kanban Board", 0⟩

/-- The fetched server state of the conflict scenario: title `"B"`,
version 3. -/
def conflictServerState : BoardShape :=
  ⟨[{ id := "l1", title := some (.str "B"), version := some 3 }],
    [("l1", [])], "My Kanban Board"⟩

/-- C5 counterexample: in a cycle whose merge produces a conflict, the
conflicts are published — yet the queued item's remote invocation is still
attempted and the item removed: the queue loop is outside the conflict
branch, refuting "does not drain the operation queue". -/
theorem performSync_conflicts_cex :
    (performSync 1 "g" true conflictLocalState (some conflictBaseRef)
        (some conflictServerState) [⟨"op1", true⟩]).state.conflicts ≠ [] ∧
    (performSync 1 "g" true conflictLocalState (some conflictBaseRef)
        (some conflictServerState) [⟨"op1", true⟩]).attempted = ["op1"] ∧
    (performSync 1 "g" true conflictLocalState (some conflictBaseRef)
        (some conflictServerState) [⟨"op1", true⟩]).queue = [] := by
  refine ⟨by decide, rfl, rfl⟩

/-- C5 amended: the single-flight guard holds — a cycle is skipped
entirely (state, base ref and queue untouched, no call attempted) while a
sync is running or unresolved conflicts are pending — and when the merge
yields a non-empty conflict list the cycle does publish the conflicts
without applying the merged document; but the operation queue is still
drained in the same cycle: every queued item's call is attempted and the
successful ones are removed. -/
theorem performSync_guard_and_drain (now : Nat) (gid : String) (nav : Bool)
    (st : RState) (baseRef : Option MergedBoard) (fetched : Option BoardShape)
    (queue : List SyncQueueItem) :
    (st.syncing = true ∨ st.conflicts ≠ [] →
      performSync now gid nav st baseRef fetched queue = ⟨st, baseRef, queue, []⟩) ∧
    (∀ server : BoardShape,
      st.syncing = false → st.conflicts = [] → fetched = some server →
      (mergeBoardState now (some ((baseRef.map MergedBoard.toShape).getD
          st.toShape)) st.toShape server).2 ≠ [] →
      (performSync now gid nav st baseRef fetched queue).state.conflicts =
        (mergeBoardState now (some ((baseRef.map MergedBoard.toShape).getD
          st.toShape)) st.toShape server).2 ∧
      (performSync now gid nav st baseRef fetched queue).baseRef = baseRef ∧
      (performSync now gid nav st baseRef fetched queue).attempted =
        queue.map (fun i => i.id) ∧
      (performSync now gid nav st baseRef fetched queue).queue =
        queue.filter (fun i => ¬ i.ok)) := by
  constructor
  · intro hguard
    unfold performSync
    have : (st.syncing || st.conflicts.length > 0) = true := by
      rcases hguard with h | h
      · simp [h]
      · simp [h, List.length_pos.mpr h]
    rw [if_pos this]
  · intro server hsync hconf hfetch hne
    have hguard : (st.syncing || st.conflicts.length > 0) = false := by
      simp [hsync, hconf]
    unfold performSync
    rw [hguard, hfetch]
    simp only [Bool.false_eq_true, if_false]
    have hlen : ((mergeBoardState now (some ((baseRef.map MergedBoard.toShape).getD
        st.toShape)) st.toShape server).2.length > 0) := List.length_pos.mpr hne
    rw [if_pos hlen]
    refine ⟨?_, ?_, ?_, ?_⟩ <;> simp [boardReducer]

/-- C5 witness: on the concrete conflict scenario, the skip-guard branch
and the conflict-cycle branch of the amended statement both apply. -/
theorem performSync_guard_and_drain_witness :
    (performSync 1 "g" true { conflictLocalState with syncing := true }
        (some conflictBaseRef) (some conflictServerState) [⟨"op1", true⟩] =
      ⟨{ conflictLocalState with syncing := true }, some conflictBaseRef,
        [⟨"op1", true⟩], []⟩) ∧
    (performSync 1 "g" true conflictLocalState (some conflictBaseRef)
        (some conflictServerState) [⟨"op1", true⟩]).baseRef =
      some conflictBaseRef :=
  ⟨(performSync_guard_and_drain 1 "g" true
      { conflictLocalState with syncing := true } (some conflictBaseRef)
      (some conflictServerState) [⟨"op1", true⟩]).1 (Or.inl rfl),
   ((performSync_guard_and_drain 1 "g" true conflictLocalState
      (some conflictBaseRef) (some conflictServerState) [⟨"op1", true⟩]).2
      conflictServerState rfl rfl rfl (by decide)).2.1⟩

/-- The concrete entities of the C2 scenario from the spec. -/
def c2Base : Entity := { id := "e", title := some (.str "Original"), version := some 1 }

/-- Local side of the C2 scenario: title changed to `"A"`, version 2. -/
def c2Local : Entity := { id := "e", title := some (.str "A"), version := some 2 }

/-- Server side of the C2 scenario: description `"B"` added, version 2. -/
def c2Server : Entity :=
  { id := "e", title := some (.str "Original"), description := some (.str "B"),
    version := some 2 }

/-- C2 counterexample: on the spec's scenario inputs the merged entity does
NOT carry the server's description `"B"` — the equal-version guard returns
`local` unchanged, so the description is absent. -/
theorem threeWayMerge_c2_scenario_cex :
    ¬ ((threeWayMerge (some c2Base) c2Local c2Server).1.description =
        some (.str "B")) := by
  decide

/-- C2 amended: on the scenario inputs (local and server both at version 2)
`threeWayMerge` returns the local entity unchanged with zero conflicts:
the title is `"A"` and the conflict list empty as claimed, but the
description stays absent instead of `"B"`. -/
theorem threeWayMerge_c2_scenario :
    threeWayMerge (some c2Base) c2Local c2Server = (c2Local, []) ∧
    c2Local.title = some (.str "A") ∧ c2Local.description = none := by
  refine ⟨rfl, rfl, rfl⟩

end Kanban
